import Mathlib

/-!
# Verification of the gogetmedia download manager core

A shallow embedding of the job table / scheduler state machine
(`internal/manager`), the persistence layer (`internal/manager/persistence.go`)
and the progress-extraction protocol (`internal/core/download.go`) of the
gogetmedia repository, together with proofs of the behavioural claims about it.

Go maps are modelled as association lists (`List (String × Download)` for the
job table, `List String` for the key sets of the progress-channel,
cancellation-handle, paused and duplicate-URL tables).  The bounded Go channel
used as the work queue is modelled as a list of job IDs plus a capacity; a
non-blocking send (`select`/`default`) succeeds exactly when the length is
below the capacity.  External effects (clock reads, yt-dlp probes, the
filesystem) are passed in as explicit arguments, and file deletions performed
by an operation are returned as an explicit list of paths.
-/

set_option maxRecDepth 4096

namespace GoGetMedia

/-- Media kind of a request (`DownloadType` in `internal/core/download.go`). -/
inductive DownloadType where
  | video
  | audio
deriving DecidableEq, Repr

/-- Lifecycle state of a job (`DownloadStatus` in `internal/core/download.go`). -/
inductive DownloadStatus where
  | queued
  | downloading
  | postProcessing
  | paused
  | completed
  | failed
  | cancelled
  | alreadyExists
deriving DecidableEq, Repr

/-- A progress snapshot (`DownloadProgress`).  The Go `float64` percentage is
modelled as a rational number; every percentage the program computes on the
inputs considered here is exactly representable in both. -/
structure DownloadProgress where
  percentage : ℚ
  speed : String
  eta : String
  size : String
deriving DecidableEq, Repr

/-- The zero value of `DownloadProgress` in Go. -/
def emptyProgress : DownloadProgress := ⟨0, "", "", ""⟩

/-- One job (`Download` in `internal/core/download.go`).  Timestamps are
abstract `Nat` clock readings. -/
structure Download where
  id : String
  url : String
  type : DownloadType
  quality : String
  format : String
  status : DownloadStatus
  progress : DownloadProgress
  title : String
  filename : String
  outputPath : String
  createdAt : Nat
  completedAt : Option Nat
  error : String
  statusMessage : String
deriving DecidableEq, Repr

/-- A submission request (`DownloadRequest`); the output directory is held by
the manager itself so it is omitted here. -/
structure DownloadRequest where
  url : String
  type : DownloadType
  quality : String
  format : String
deriving DecidableEq, Repr

/-- State of a `DownloadManager`: the job table and the four auxiliary tables
that share its lock, plus the bounded queue (IDs in arrival order, capacity
`queueCap`; the source constructs it with capacity 100) and the output
directory. -/
structure DMState where
  downloads : List (String × Download)
  queue : List String
  queueCap : Nat
  progressChannels : List String
  cancelFuncs : List String
  pausedDownloads : List String
  processingUrls : List String
  outputDir : String
deriving DecidableEq, Repr

/-- Map lookup on the job table (`dm.downloads[id]`). -/
def lookupDl (l : List (String × Download)) (id : String) : Option Download :=
  (l.find? (fun p => p.1 == id)).map (·.2)

/-- Map deletion on the job table (`delete(dm.downloads, id)`). -/
def eraseDl (l : List (String × Download)) (id : String) : List (String × Download) :=
  l.filter (fun p => !(p.1 == id))

/-- Map insertion on the job table (`dm.downloads[id] = d`): an existing
binding for the key is overwritten. -/
def insertDl (l : List (String × Download)) (id : String) (d : Download) :
    List (String × Download) :=
  eraseDl l id ++ [(id, d)]

/-- In-place mutation of the job bound to `id` (the Go code mutates the
`*core.Download` the map points at, leaving the map binding itself alone). -/
def updateDl (l : List (String × Download)) (id : String) (f : Download → Download) :
    List (String × Download) :=
  l.map (fun p => if p.1 == id then (p.1, f p.2) else p)

/-- Key-set membership for the auxiliary tables. -/
def memS (l : List String) (x : String) : Bool :=
  l.contains x

/-- Key-set insertion (`m[k] = v` on a Go map used as a set). -/
def insertS (l : List String) (x : String) : List String :=
  if l.contains x then l else l ++ [x]

/-- Key-set deletion (`delete(m, k)`). -/
def eraseS (l : List String) (x : String) : List String :=
  l.filter (fun y => !(y == x))

/-- Convenience: the status currently recorded for `id` in a state. -/
def statusOf (s : DMState) (id : String) : Option DownloadStatus :=
  (lookupDl s.downloads id).map (·.status)

/-- Outcome of a manager operation: the Go `error` return (`none` = nil), the
resulting manager state, and the list of cancellation handles invoked during
the call (each entry is one invocation of the per-job `context.CancelFunc`). -/
structure OpResult where
  err : Option String
  state : DMState
  invoked : List String
deriving DecidableEq, Repr

/-- `DownloadManager.CancelDownload` (src/unnamed/part_005:241-273).  For a
`downloading`/`post-processing` job the cancellation handle is invoked (if
installed) and removed and the job becomes `cancelled`; a `queued` job becomes
`cancelled`; any other status is left untouched.  In every found case the
duplicate-URL marker for the job's URL is released and nil is returned.
(The temporary-file cleanup done for a cancelled `post-processing` job is a
filesystem effect not tracked by this operation's result.) -/
def cancelDownload (s : DMState) (id : String) : OpResult :=
  match lookupDl s.downloads id with
  | none => ⟨some "download not found", s, []⟩
  | some d =>
    if d.status = .downloading ∨ d.status = .postProcessing then
      let inv := if s.cancelFuncs.contains id then [id] else []
      ⟨none,
        { s with
          downloads := updateDl s.downloads id (fun x => { x with status := .cancelled })
          cancelFuncs := eraseS s.cancelFuncs id
          processingUrls := eraseS s.processingUrls d.url },
        inv⟩
    else if d.status = .queued then
      ⟨none,
        { s with
          downloads := updateDl s.downloads id (fun x => { x with status := .cancelled })
          processingUrls := eraseS s.processingUrls d.url },
        []⟩
    else
      ⟨none, { s with processingUrls := eraseS s.processingUrls d.url }, []⟩

/-- `DownloadManager.PauseDownload` (src/unnamed/part_005:275-302).  A
`downloading` job has its cancellation handle invoked (if installed) and
removed and is parked as `paused`; a `queued` job is parked directly; any
other status yields an error with the state unchanged. -/
def pauseDownload (s : DMState) (id : String) : OpResult :=
  match lookupDl s.downloads id with
  | none => ⟨some "download not found", s, []⟩
  | some d =>
    if d.status = .downloading then
      let inv := if s.cancelFuncs.contains id then [id] else []
      ⟨none,
        { s with
          downloads := updateDl s.downloads id (fun x => { x with status := .paused })
          cancelFuncs := eraseS s.cancelFuncs id
          pausedDownloads := insertS s.pausedDownloads id },
        inv⟩
    else if d.status = .queued then
      ⟨none,
        { s with
          downloads := updateDl s.downloads id (fun x => { x with status := .paused })
          pausedDownloads := insertS s.pausedDownloads id },
        []⟩
    else
      ⟨some ("download cannot be paused in current state"), s, []⟩

/-- `DownloadManager.ResumeDownload` (src/unnamed/part_005:304-336).  A job
that is not `paused` yields an error.  Otherwise its status is set to
`queued` and its error text is cleared (the source explicitly assigns
`download.Error = ""`; progress and `CompletedAt` are left alone), it is
removed from the paused table and re-enqueued.  If the queue is full the
status is put back to `paused` and the job re-parked, but the cleared error
text is not restored. -/
def resumeDownload (s : DMState) (id : String) : OpResult :=
  match lookupDl s.downloads id with
  | none => ⟨some "download not found", s, []⟩
  | some d =>
    if d.status ≠ .paused then ⟨some "download is not paused", s, []⟩
    else if s.queue.length < s.queueCap then
      ⟨none,
        { s with
          downloads := updateDl s.downloads id (fun x => { x with status := .queued, error := "" })
          pausedDownloads := eraseS s.pausedDownloads id
          queue := s.queue ++ [id] },
        []⟩
    else
      ⟨some "download queue is full",
        { s with
          downloads := updateDl s.downloads id (fun x => { x with status := .paused, error := "" })
          pausedDownloads := insertS (eraseS s.pausedDownloads id) id },
        []⟩

/-- `DownloadManager.RetryDownload` (src/unnamed/part_005:338-364).  Only a
`downloading` or `queued` job is rejected as "already active"; every other
status — including the terminal `completed`, `cancelled` and
`already_exists` — is reset to `queued` with error/progress/completion
cleared and re-enqueued (or left reset with a "queue is full" error). -/
def retryDownload (s : DMState) (id : String) : OpResult :=
  match lookupDl s.downloads id with
  | none => ⟨some "download not found", s, []⟩
  | some d =>
    if d.status = .downloading ∨ d.status = .queued then
      ⟨some "download is already active", s, []⟩
    else
      let reset : Download → Download := fun x =>
        { x with status := .queued, error := "", progress := emptyProgress, completedAt := none }
      if s.queue.length < s.queueCap then
        ⟨none,
          { s with downloads := updateDl s.downloads id reset, queue := s.queue ++ [id] },
          []⟩
      else
        ⟨some "download queue is full",
          { s with downloads := updateDl s.downloads id reset },
          []⟩

/-! ## String and path helpers

Models of the Go standard-library string/path functions the manager uses.
Strings in this development are ASCII (every string the proofs evaluate on
is ASCII), so byte-indexed Go operations and character-indexed Lean
operations agree, and `unicode`-class predicates are modelled by their ASCII
fragments. -/

/-- Scan for `pat` as a contiguous sublist. -/
def subScan (pat : List Char) : List Char → Bool
  | [] => pat.isEmpty
  | c :: cs => pat.isPrefixOf (c :: cs) || subScan pat cs

/-- `strings.Contains s pat`. -/
def containsSub (s pat : String) : Bool :=
  subScan pat.toList s.toList

/-- `strings.HasPrefix` — structural, so proofs can evaluate it. -/
def strStartsWith (s pre : String) : Bool :=
  pre.toList.isPrefixOf s.toList

/-- `strings.HasSuffix` — structural, so proofs can evaluate it. -/
def strEndsWith (s suf : String) : Bool :=
  suf.toList.reverse.isPrefixOf s.toList.reverse

/-- Split on a single-character separator (`strings.Split` with the
one-character separators this program uses). -/
def splitOnChar (sep : Char) : List Char → List (List Char)
  | [] => [[]]
  | c :: cs =>
    match splitOnChar sep cs with
    | [] => [[]]
    | r :: rs => if c = sep then [] :: r :: rs else (c :: r) :: rs

/-- `strings.Split s (String.singleton sep)`. -/
def strSplitOnChar (s : String) (sep : Char) : List String :=
  (splitOnChar sep s.toList).map String.mk

/-- `strings.ReplaceAll` for the single-character replacements this program
performs. -/
def replaceChar (a b : Char) (s : String) : String :=
  String.mk (s.toList.map (fun c => if c = a then b else c))

/-- `strings.Join` / `String.intercalate`. -/
def joinWith (sep : String) : List String → String
  | [] => ""
  | [x] => x
  | x :: y :: rest => x ++ sep ++ joinWith sep (y :: rest)

/-- `strings.ToLower` (ASCII fragment). -/
def lowerStr (s : String) : String :=
  String.mk (s.toList.map Char.toLower)

/-- The characters `unicode.IsSpace` recognises, restricted to ASCII. -/
def isGoSpace (c : Char) : Bool :=
  c = ' ' ∨ c = '\t' ∨ c = '\n' ∨ c = '\r' ∨ c = '\x0b' ∨ c = '\x0c'

/-- `strings.TrimSpace`. -/
def trimSpaceStr (s : String) : String :=
  String.mk (((s.toList.dropWhile isGoSpace).reverse.dropWhile isGoSpace).reverse)

/-- `strings.TrimSuffix`. -/
def trimSuffixStr (s suf : String) : String :=
  if strEndsWith s suf then String.mk (s.toList.take (s.toList.length - suf.toList.length))
  else s

/-- `filepath.Base` for the already-clean paths this program builds
(no trailing separator): the part after the last `/`. -/
def pathBase (p : String) : String :=
  if p = "" then "." else (strSplitOnChar p '/').getLastD p

/-- `filepath.Dir` for the already-clean paths this program builds: the part
before the last `/`, or `.` if there is none. -/
def pathDir (p : String) : String :=
  let parts := strSplitOnChar p '/'
  if parts.length ≤ 1 then "." else joinWith "/" parts.dropLast

/-- `filepath.Ext`: the suffix beginning at the final dot in the final
path element, empty if that element has no dot. -/
def pathExt (p : String) : String :=
  let rcs := (pathBase p).toList.reverse
  let pre := rcs.takeWhile (fun c => c ≠ '.')
  if pre.length = rcs.length then "" else String.mk ('.' :: pre.reverse)

/-- `filepath.Join dir name` for a clean `dir` and a bare `name`. -/
def joinPath (dir name : String) : String :=
  dir ++ "/" ++ name

/-! ## Submission (`DownloadManager.AddDownload`) -/

/-- `Downloader.IsPlaylistURL` (src/internal/core/download.go:1098-1101). -/
def isPlaylistURL (url : String) : Bool :=
  containsSub url "list=" || containsSub url "playlist?"

/-- `DownloadManager.extractTitleFromPath` (src/unnamed/part_005:1182-1196). -/
def extractTitleFromPath (filePath : String) : String :=
  let filename := pathBase filePath
  let title := trimSuffixStr filename (pathExt filename)
  let title := replaceChar '_' ' ' title
  let title := trimSpaceStr title
  if title = "" then filename else title

/-- The (URL, media kind, quality, format) tuple comparison of the
`AddDownload` duplicate scan. -/
def tupleMatch (req : DownloadRequest) (d : Download) : Bool :=
  decide (d.url = req.url ∧ d.type = req.type ∧ d.quality = req.quality ∧
    d.format = req.format)

/-- The duplicate-tuple scan of `AddDownload` (src/unnamed/part_005:91-110):
the first job matching the request's (URL, type, quality, format) tuple whose
status the `switch` handles determines a status-specific error; `paused` and
`cancelled` matches fall through and the scan continues. -/
def dupCheck (req : DownloadRequest) : List (String × Download) → Option String
  | [] => none
  | (_, d) :: rest =>
    if d.url = req.url ∧ d.type = req.type ∧ d.quality = req.quality ∧ d.format = req.format then
      match d.status with
      | .queued | .downloading | .postProcessing =>
        some "this URL is already being downloaded with the same quality and format"
      | .completed | .alreadyExists =>
        some "this URL has already been downloaded with the same quality and format"
      | .failed =>
        some "this URL was previously attempted with the same settings. Remove the failed download first to retry"
      | _ => dupCheck req rest
    else dupCheck req rest

/-- Result of `AddDownload`: the Go `error`, the new state, and the created
job (if any). -/
structure AddResult where
  err : Option String
  state : DMState
  created : Option Download
deriving DecidableEq, Repr

/-- `DownloadManager.AddDownload` (src/unnamed/part_005:77-169).  Externals
are passed in explicitly: `newId` is the `core.GenerateID()` result, `now`
the clock reading, and `existingFile` the result of the filesystem/yt-dlp
probe `dm.checkFileExists(req)` (`""` when no pre-existing file was found).
The call rejects playlist URLs, URLs already marked in `processingUrls`, and
duplicate tuples; otherwise it marks the URL, creates the job (directly in
`already_exists` when `existingFile` is non-empty, releasing the marker), and
otherwise registers it as `queued` with a fresh progress channel and pushes it
onto the bounded queue — rolling the job, channel and marker back when the
queue is full. -/
def addDownload (s : DMState) (req : DownloadRequest) (newId : String) (now : Nat)
    (existingFile : String) : AddResult :=
  if isPlaylistURL req.url then
    ⟨some "playlist URL detected - use playlist-specific endpoints instead", s, none⟩
  else if s.processingUrls.contains req.url then
    ⟨some "this URL is already being processed", s, none⟩
  else
    match dupCheck req s.downloads with
    | some msg => ⟨some msg, s, none⟩
    | none =>
      let s1 := { s with processingUrls := insertS s.processingUrls req.url }
      let d0 : Download :=
        { id := newId, url := req.url, type := req.type, quality := req.quality
          format := req.format, status := .queued, progress := emptyProgress
          title := "", filename := "", outputPath := "", createdAt := now
          completedAt := none, error := "", statusMessage := "" }
      if existingFile ≠ "" then
        let d1 : Download :=
          { d0 with status := .alreadyExists, outputPath := existingFile
                    filename := pathBase existingFile, completedAt := some now
                    title := extractTitleFromPath existingFile }
        ⟨none,
          { s1 with
            downloads := insertDl s1.downloads newId d1
            progressChannels := insertS s1.progressChannels newId
            processingUrls := eraseS s1.processingUrls req.url },
          some d1⟩
      else
        let s2 := { s1 with
                    downloads := insertDl s1.downloads newId d0
                    progressChannels := insertS s1.progressChannels newId }
        if s2.queue.length < s2.queueCap then
          ⟨none, { s2 with queue := s2.queue ++ [newId] }, some d0⟩
        else
          ⟨some "download queue is full",
            { s2 with
              downloads := eraseDl s2.downloads newId
              progressChannels := eraseS s2.progressChannels newId
              processingUrls := eraseS s2.processingUrls req.url },
            none⟩

/-! ## Deletion (`DownloadManager.RemoveDownload`) and temp-file cleanup -/

/-- A dot-separated name part of the shape `f<digits>`
(`strings.HasPrefix(part, "f")`, length over one, all digits after the
`f`). -/
def isFmtPart (part : String) : Bool :=
  match part.toList with
  | 'f' :: rest => !rest.isEmpty && rest.all Char.isDigit
  | _ => false

/-- `DownloadManager.isYtDlpFormatFile` (src/unnamed/part_005:651-706): a file
whose (case-folded) name contains the base name and either carries a
`.f<digits>.<ext>` format marker or has a common media extension different
from the base name's extension. -/
def isYtDlpFormatFile (filename baseFilename : String) : Bool :=
  if containsSub (lowerStr filename) (lowerStr baseFilename) then
    let parts := strSplitOnChar filename '.'
    let formatPart := (parts.enum).any (fun pi =>
      isFmtPart pi.2 && decide (pi.1 < parts.length - 1))
    if formatPart then true
    else
      let baseExt := pathExt baseFilename
      let fnExt := pathExt filename
      if baseExt ≠ "" ∧ fnExt ≠ "" ∧ baseExt ≠ fnExt then
        [".mp4", ".webm", ".m4a", ".mp3", ".mkv", ".flv", ".3gp"].any (fun e => fnExt = e)
      else false
  else false

/-- `DownloadManager.isLikelyYtDlpFile` (src/unnamed/part_005:709-752). -/
def isLikelyYtDlpFile (filename : String) : Bool :=
  let lf := lowerStr filename
  let patterns := [".f", ".part", ".tmp", ".temp", ".ytdl", ".download", ".partial", ".downloading"]
  if patterns.any (fun pat => containsSub lf pat) then true
  else
    (strSplitOnChar filename '.').any isFmtPart

/-- The temporary-file predicate inlined in `cleanupTemporaryFiles`
(src/unnamed/part_005:509-517). -/
def isTempFilename (filename : String) : Bool :=
  containsSub filename ".part" || containsSub filename ".tmp" ||
  containsSub filename ".temp" || strEndsWith filename ".f" ||
  containsSub filename ".ytdl" || containsSub filename ".download" ||
  containsSub filename ".partial" || strStartsWith filename "tmp" ||
  strEndsWith filename ".downloading"

/-- The base filename `cleanupTemporaryFiles` derives for its directory scan
(src/unnamed/part_005:440-469); `none` when the function bails out early. -/
def cleanupBaseFilename (d : Download) : Option String :=
  if d.filename = "" ∧ d.title = "" then none
  else
    let base := d.filename
    let base := if d.outputPath ≠ "" then
        (if pathBase d.outputPath ≠ "" then pathBase d.outputPath else base)
      else base
    let base := if base = "" ∧ d.title ≠ "" then
        replaceChar '\\' '_' (replaceChar '/' '_' (lowerStr (replaceChar ' ' '_' d.title)))
      else base
    if base = "" then none
    else
      some (if pathExt base ≠ "" then trimSuffixStr base (pathExt base) else base)

/-- `DownloadManager.cleanupTemporaryFiles` (src/unnamed/part_005:439-551).
`listing` is the `os.ReadDir` result (regular files, in directory order) of
the directory the function scans — `Dir(OutputPath)` when the job has an
output path, the manager's output directory otherwise.  Returns the full
paths the function removes. -/
def cleanupTemporaryFiles (d : Download) (outputDir : String) (listing : List String) :
    List String :=
  match cleanupBaseFilename d with
  | none => []
  | some base =>
    let dir := if d.outputPath ≠ "" then pathDir d.outputPath else outputDir
    listing.filterMap (fun filename =>
      if containsSub (lowerStr filename) (lowerStr base) then
        if isTempFilename filename || isYtDlpFormatFile filename base then
          some (joinPath dir filename)
        else none
      else if isLikelyYtDlpFile filename then
        some (joinPath dir filename)
      else none)

/-- Result of `RemoveDownload`: the Go `error`, the new state, the
cancellation handles invoked, and the file paths removed (in program order:
the job's output file first, then temporary/partial files). -/
structure RemoveResult where
  err : Option String
  state : DMState
  invoked : List String
  removedFiles : List String
deriving DecidableEq, Repr

/-- `DownloadManager.RemoveDownload` (src/unnamed/part_005:366-436).
Cancels a running job's process, deletes the output file of a
`completed`/`already_exists`/`post-processing` job with a recorded output
path, cleans temporary files (plus any partial output file) for a job that
was `downloading`/`post-processing`/`failed`/`cancelled`, and removes the job
from the job table, the paused table, the cancellation-handle table, the
duplicate-URL marker set and the progress-channel table. -/
def removeDownload (s : DMState) (id : String) (listing : List String) : RemoveResult :=
  match lookupDl s.downloads id with
  | none => ⟨some "download not found", s, [], []⟩
  | some d =>
    let inv :=
      if (d.status = .downloading ∨ d.status = .postProcessing) ∧ s.cancelFuncs.contains id
      then [id] else []
    let outRemovals :=
      if (d.status = .completed ∨ d.status = .alreadyExists ∨ d.status = .postProcessing) ∧
          d.outputPath ≠ "" then [d.outputPath] else []
    let tempRemovals :=
      if d.status = .downloading ∨ d.status = .postProcessing ∨
         d.status = .failed ∨ d.status = .cancelled then
        cleanupTemporaryFiles d s.outputDir listing ++
          (if (d.status = .downloading ∨ d.status = .failed) ∧ d.outputPath ≠ "" then
            [d.outputPath] else [])
      else []
    ⟨none,
      { s with
        downloads := eraseDl s.downloads id
        pausedDownloads := eraseS s.pausedDownloads id
        cancelFuncs := eraseS s.cancelFuncs id
        processingUrls := eraseS s.processingUrls d.url
        progressChannels := eraseS s.progressChannels id },
      inv,
      outRemovals ++ tempRemovals⟩

/-! ## Job IDs and playlist submission -/

/-- `core.GenerateID` (src/internal/core/download.go:1093-1095): the decimal
rendering of the current `time.Now().UnixNano()` reading, nothing more. -/
def generateID (nowNanos : Nat) : String :=
  Nat.repr nowNanos

/-- One entry of a playlist as reported by yt-dlp (`core.PlaylistItem`). -/
structure PlaylistItem where
  id : String
  title : String
  url : String
  duration : String
deriving DecidableEq, Repr

/-- One iteration of the `AddPlaylistDownload` loop
(src/unnamed/part_005:188-216) for one playlist item, with `t` the clock
reading its `GenerateID()`/`time.Now()` calls observe.  The `break` in the
full-queue arm only leaves the `select`, not the loop, so the next item is
processed either way; a full queue merely skips the enqueue. -/
def addPlaylistItem (s : DMState) (req : DownloadRequest) (item : PlaylistItem) (t : Nat) :
    DMState × Download :=
  let d : Download :=
    { id := generateID t
      url := "https://www.youtube.com/watch?v=" ++ item.id
      type := req.type, quality := req.quality, format := req.format
      status := .queued, progress := emptyProgress
      title := item.title, filename := "", outputPath := ""
      createdAt := t, completedAt := none, error := "", statusMessage := "" }
  let s1 := { s with
              downloads := insertDl s.downloads d.id d
              progressChannels := insertS s.progressChannels d.id }
  if s1.queue.length < s1.queueCap then ({ s1 with queue := s1.queue ++ [d.id] }, d)
  else (s1, d)

/-- `DownloadManager.AddPlaylistDownload` (src/unnamed/part_005:171-219)
after the external `GetPlaylistItems` probe, whose result is the `items`
argument; `times` pairs each item with the clock reading observed while
creating it.  Returns the final state and the jobs created, in order (the Go
function returns the first of these to its caller). -/
def addPlaylistDownload (s : DMState) (req : DownloadRequest) (items : List PlaylistItem)
    (times : List Nat) : DMState × List Download :=
  (items.zip times).foldl
    (fun acc p =>
      let r := addPlaylistItem acc.1 req p.1 p.2
      (r.1, acc.2 ++ [r.2]))
    (s, [])

/-! ## Persistence (`internal/manager/persistence.go`)

JSON (de)serialisation of the `StateFile` struct is modelled as the identity
on the record: `json.Marshal`/`json.Unmarshal` round-trip every field of
`core.Download` that the struct tags expose, which is all of them. -/

/-- `manager.StateFile` (src/internal/manager/persistence.go:15-19). -/
structure StateFile where
  downloads : List (String × Download)
  savedAt : Nat
  version : String
deriving DecidableEq, Repr

/-- `manager.StateVersion`. -/
def stateVersion : String := "1.0"

/-- `DownloadManager.SaveState` (src/internal/manager/persistence.go:29-63):
a snapshot of the job table with the save timestamp and schema version
(the atomic temp-file-then-rename write is the filesystem half, not
modelled). -/
def saveState (s : DMState) (now : Nat) : StateFile :=
  ⟨s.downloads, now, stateVersion⟩

/-- `DownloadManager.validateRestoredDownload`
(src/internal/manager/persistence.go:130-155), with `fileExists` standing for
the `os.Stat` probe.  Returns `none` when the job is rejected (missing
ID/URL), otherwise the job after the in-place repairs: a `completed` job
whose output file vanished is demoted to `failed` with an explanatory error,
and live progress is reset for every job that is not
`completed`/`already_exists`. -/
def validateRestoredDownload (fileExists : String → Bool) (d : Download) : Option Download :=
  if d.id = "" ∨ d.url = "" then none
  else
    let d1 :=
      if d.status = .completed ∧ d.outputPath ≠ "" ∧ ¬ fileExists d.outputPath then
        { d with status := .failed, error := "Output file not found after restart" }
      else d
    let d2 :=
      if d1.status ≠ .completed ∧ d1.status ≠ .alreadyExists then
        { d1 with progress := emptyProgress }
      else d1
    some d2

/-- One iteration of the `LoadState` restore loop
(src/internal/manager/persistence.go:97-121): validate, insert with a fresh
progress channel, and re-queue a job left `downloading`/`queued`/
`post-processing` — demoting it to `failed` when the bounded queue is
full. -/
def restoreOne (fileExists : String → Bool) (s : DMState) (id : String) (d : Download) :
    DMState :=
  match validateRestoredDownload fileExists d with
  | none => s
  | some d1 =>
    if d1.status = .downloading ∨ d1.status = .queued ∨ d1.status = .postProcessing then
      if s.queue.length < s.queueCap then
        { s with
          downloads := insertDl s.downloads id { d1 with status := .queued }
          progressChannels := insertS s.progressChannels id
          queue := s.queue ++ [id] }
      else
        { s with
          downloads := insertDl s.downloads id
            { d1 with status := .failed, error := "Queue full during restoration" }
          progressChannels := insertS s.progressChannels id }
    else
      { s with
        downloads := insertDl s.downloads id d1
        progressChannels := insertS s.progressChannels id }

/-- `DownloadManager.LoadState` (src/internal/manager/persistence.go:66-127)
given the parsed state file (a missing or unparseable file simply leaves the
state alone, as does a schema-version mismatch). -/
def loadState (s : DMState) (sf : StateFile) (fileExists : String → Bool) : DMState :=
  if sf.version ≠ stateVersion then s
  else sf.downloads.foldl (fun acc p => restoreOne fileExists acc p.1 p.2) s

/-! ## The progress channel and its non-blocking send
(`Downloader.monitorProgress`, src/internal/core/download.go) -/

/-- A buffered Go channel of progress snapshots: capacity, current buffer,
and whether it has been closed. -/
structure ProgressChan where
  cap : Nat
  buffer : List DownloadProgress
  closed : Bool
deriving DecidableEq, Repr

/-- A Go runtime fault that a deferred `recover()` can intercept. -/
inductive GoFault where
  | sendOnClosedChannel
deriving DecidableEq, Repr

/-- The semantics of `select { case ch <- p: default: }`: a send on a closed
channel panics, a send on a full channel takes the `default` branch (the
sender never blocks), and otherwise the value is buffered. -/
def chanTrySend (ch : ProgressChan) (p : DownloadProgress) : Except GoFault ProgressChan :=
  if ch.closed then .error .sendOnClosedChannel
  else if ch.buffer.length < ch.cap then .ok { ch with buffer := ch.buffer ++ [p] }
  else .ok ch

/-- The send wrapper used for every progress update in `monitorProgress`
(e.g. src/internal/core/download.go:885-901 and 1011-1023): the non-blocking
send guarded by a deferred `recover()` that swallows the closed-channel
panic, leaving the channel as it was. -/
def safeProgressSend (ch : ProgressChan) (p : DownloadProgress) : ProgressChan :=
  match chanTrySend ch p with
  | .ok ch' => ch'
  | .error _ => ch

/-! ## Progress extraction (`Downloader.monitorProgress`,
src/internal/core/download.go:736-1042)

The Go code recognises lines with `regexp` patterns.  Each pattern is
translated into a deterministic matcher over `List Char`; the character
classes involved (`\d`, `\.`, `\s`, `\S`, literal text) are pairwise disjoint
wherever two quantified pieces meet, so maximal-munch matching coincides with
the backtracking semantics of the originals.  Unanchored patterns are tried
at every start position, leftmost first, as `FindStringSubmatch` does. -/

/-- The `regexp` class `\s`. -/
def isRegexWs (c : Char) : Bool :=
  c = ' ' ∨ c = '\t' ∨ c = '\n' ∨ c = '\x0c' ∨ c = '\r'

/-- Consume an exact literal. -/
def dropLit : List Char → List Char → Option (List Char)
  | [], cs => some cs
  | _ :: _, [] => none
  | l :: ls, c :: cs => if l = c then dropLit ls cs else none

/-- Consume `\s+` (greedy, at least one). -/
def ws1 (cs : List Char) : Option (List Char) :=
  let rest := cs.dropWhile isRegexWs
  if rest.length = cs.length then none else some rest

/-- Consume `\s*` (greedy). -/
def ws0 (cs : List Char) : List Char :=
  cs.dropWhile isRegexWs

/-- Consume a character class greedily, at least once, capturing the text. -/
def takeCls1 (p : Char → Bool) (cs : List Char) : Option (List Char × List Char) :=
  let tok := cs.takeWhile p
  if tok.isEmpty then none else some (tok, cs.drop tok.length)

/-- Consume `(\d+\.?\d*)`, capturing the text. -/
def numTok (cs : List Char) : Option (List Char × List Char) := do
  let (ds, rest) ← takeCls1 Char.isDigit cs
  match rest with
  | '.' :: rest2 =>
    let ds2 := rest2.takeWhile Char.isDigit
    some (ds ++ '.' :: ds2, rest2.drop ds2.length)
  | _ => some (ds, rest)

/-- Lazy `(.+?)` followed by a tail matcher: the shortest non-empty prefix of
non-newline characters after which `tail` matches.  `acc` is the (reversed)
text consumed so far. -/
def lazyPlus (tail : List Char → Option α) : List Char → List Char → Option (List Char × α)
  | _, [] => none
  | acc, c :: cs =>
    if c = '\n' then none
    else
      match tail cs with
      | some r => some ((c :: acc).reverse, r)
      | none => lazyPlus tail (c :: acc) cs

/-- Lazy `.*?` followed by a tail matcher (shortest gap, possibly empty). -/
def lazyGap (tail : List Char → Option α) : List Char → Option α
  | [] => tail []
  | c :: cs =>
    match tail (c :: cs) with
    | some r => some r
    | none => if c = '\n' then none else lazyGap tail cs

/-- Try a matcher at every start position, leftmost first
(`FindStringSubmatch` on an unanchored pattern). -/
def findAt (f : List Char → Option α) : List Char → Option α
  | [] => f []
  | c :: cs =>
    match f (c :: cs) with
    | some r => some r
    | none => findAt f cs

/-- One piece of a translated `regexp` pattern: a literal, whitespace, or a
capturing character-class group. -/
inductive RTok where
  /-- literal text -/
  | lit (s : String)
  /-- `\s+` -/
  | wsPlus
  /-- `\s*` -/
  | wsStar
  /-- `(\d+\.?\d*)` -/
  | capNum
  /-- `(\S+)` -/
  | capNonWs
  /-- `(\d+)` -/
  | capDigits
  /-- `(\d{2}:\d{2}:\d{2}\.\d{2})` -/
  | capTime
  /-- `([\d\.]+)` -/
  | capNumDots
deriving DecidableEq, Repr

/-- Exactly `n` digits. -/
def takeDigitsN : Nat → List Char → Option (List Char × List Char)
  | 0, cs => some ([], cs)
  | _ + 1, [] => none
  | n + 1, c :: cs =>
    if c.isDigit then
      match takeDigitsN n cs with
      | some (ds, rest) => some (c :: ds, rest)
      | none => none
    else none

/-- `(\d{2}:\d{2}:\d{2}\.\d{2})`, capturing the text. -/
def timeTok (cs : List Char) : Option (List Char × List Char) := do
  let (h, cs) ← takeDigitsN 2 cs
  let cs ← dropLit [':'] cs
  let (m, cs) ← takeDigitsN 2 cs
  let cs ← dropLit [':'] cs
  let (sec, cs) ← takeDigitsN 2 cs
  let cs ← dropLit ['.'] cs
  let (frac, cs) ← takeDigitsN 2 cs
  some (h ++ ':' :: m ++ ':' :: sec ++ '.' :: frac, cs)

/-- Run a token sequence at a fixed start position, returning the captured
groups in order and the rest of the input. -/
def runToks : List RTok → List Char → Option (List String × List Char)
  | [], cs => some ([], cs)
  | .lit s :: ts, cs =>
    match dropLit s.toList cs with
    | some cs' => runToks ts cs'
    | none => none
  | .wsPlus :: ts, cs =>
    match ws1 cs with
    | some cs' => runToks ts cs'
    | none => none
  | .wsStar :: ts, cs => runToks ts (ws0 cs)
  | .capNum :: ts, cs =>
    match numTok cs with
    | some (tok, cs') =>
      match runToks ts cs' with
      | some (caps, r) => some (String.mk tok :: caps, r)
      | none => none
    | none => none
  | .capNonWs :: ts, cs =>
    match takeCls1 (fun c => !isRegexWs c) cs with
    | some (tok, cs') =>
      match runToks ts cs' with
      | some (caps, r) => some (String.mk tok :: caps, r)
      | none => none
    | none => none
  | .capDigits :: ts, cs =>
    match takeCls1 Char.isDigit cs with
    | some (tok, cs') =>
      match runToks ts cs' with
      | some (caps, r) => some (String.mk tok :: caps, r)
      | none => none
    | none => none
  | .capTime :: ts, cs =>
    match timeTok cs with
    | some (tok, cs') =>
      match runToks ts cs' with
      | some (caps, r) => some (String.mk tok :: caps, r)
      | none => none
    | none => none
  | .capNumDots :: ts, cs =>
    match takeCls1 (fun c => c.isDigit || c = '.') cs with
    | some (tok, cs') =>
      match runToks ts cs' with
      | some (caps, r) => some (String.mk tok :: caps, r)
      | none => none
    | none => none

/-- `\[download\]\s+(\d+\.?\d*)%\s+of\s+(\S+)\s+at\s+(\S+)\s+ETA\s+(\S+)`
(download.go:740) at a fixed start position. -/
def matchDl1At (cs : List Char) : Option (List String) :=
  (runToks [.lit "[download]", .wsPlus, .capNum, .lit "%", .wsPlus, .lit "of", .wsPlus,
            .capNonWs, .wsPlus, .lit "at", .wsPlus, .capNonWs, .wsPlus, .lit "ETA",
            .wsPlus, .capNonWs] cs).map (·.1)

/-- `\[download\]\s+(\d+\.?\d*)%\s+of\s+~\s+(\S+)\s+at\s+(\S+)\s+ETA\s+(\S+)`
(download.go:742) at a fixed start position. -/
def matchDl2At (cs : List Char) : Option (List String) :=
  (runToks [.lit "[download]", .wsPlus, .capNum, .lit "%", .wsPlus, .lit "of", .wsPlus,
            .lit "~", .wsPlus, .capNonWs, .wsPlus, .lit "at", .wsPlus, .capNonWs,
            .wsPlus, .lit "ETA", .wsPlus, .capNonWs] cs).map (·.1)

/-- `\[download\]\s+(\d+\.?\d*)%\s+of\s+(.+?)\s+at\s+(\S+)\s+ETA\s+(\S+)`
(download.go:744) at a fixed start position: the lazy size group takes the
shortest text whose continuation matches `\s+at\s+(\S+)\s+ETA\s+(\S+)`. -/
def matchDl3At (cs : List Char) : Option (List String) :=
  match runToks [.lit "[download]", .wsPlus, .capNum, .lit "%", .wsPlus, .lit "of",
                 .wsPlus] cs with
  | some (caps, cs') =>
    match lazyPlus
        (fun rest => (runToks [.wsPlus, .lit "at", .wsPlus, .capNonWs, .wsPlus,
                               .lit "ETA", .wsPlus, .capNonWs] rest).map (·.1))
        [] cs' with
    | some (size, tailCaps) => some (caps ++ String.mk size :: tailCaps)
    | none => none
  | none => none

/-- `\[download\]\s+(\d+\.?\d*)%\s+of\s+(\S+)\s+in\s+(\S+)` (download.go:746)
at a fixed start position; three capture groups. -/
def matchDl4At (cs : List Char) : Option (List String) :=
  (runToks [.lit "[download]", .wsPlus, .capNum, .lit "%", .wsPlus, .lit "of", .wsPlus,
            .capNonWs, .wsPlus, .lit "in", .wsPlus, .capNonWs] cs).map (·.1)

/-- `strconv.ParseFloat` on the decimal texts the progress patterns capture
(digits with an optional fraction); like the Go call sites, a malformed text
contributes the value 0 (the error is discarded with `_`). -/
def parseFloatQ (s : String) : ℚ :=
  match strSplitOnChar s '.' with
  | [a] =>
    if a ≠ "" ∧ a.toList.all Char.isDigit then ((a.toList.foldl (fun n c => 10 * n + (c.toNat - 48)) 0 : ℕ) : ℚ)
    else 0
  | [a, b] =>
    if (a ≠ "" ∨ b ≠ "") ∧ a.toList.all Char.isDigit ∧ b.toList.all Char.isDigit then
      ((a.toList.foldl (fun n c => 10 * n + (c.toNat - 48)) 0 : ℕ) : ℚ) +
        ((b.toList.foldl (fun n c => 10 * n + (c.toNat - 48)) 0 : ℕ) : ℚ) / (10 : ℚ) ^ b.length
    else 0
  | _ => 0

/-- The progress snapshot built from a recognised `[download]` line
(download.go:987-1026): the four patterns are tried in order; `Size` is the
second group, `Speed` the third, and `ETA` the fourth when the pattern has
one (the terminal `in <elapsed>` pattern has only three groups, so its
elapsed time lands in `Speed` and `ETA` stays empty). -/
def extractDownloadProgress (line : String) : Option DownloadProgress :=
  match findAt matchDl1At line.toList with
  | some [pct, size, speed, eta] => some ⟨parseFloatQ pct, speed, eta, size⟩
  | _ =>
    match findAt matchDl2At line.toList with
    | some [pct, size, speed, eta] => some ⟨parseFloatQ pct, speed, eta, size⟩
    | _ =>
      match findAt matchDl3At line.toList with
      | some [pct, size, speed, eta] => some ⟨parseFloatQ pct, speed, eta, size⟩
      | _ =>
        match findAt matchDl4At line.toList with
        | some [pct, size, elapsed] => some ⟨parseFloatQ pct, elapsed, "", size⟩
        | _ => none

/-! ### FFmpeg machine-progress protocol (stderr `-progress pipe:2` lines and
the stdout `Duration:` probe), download.go:757-941. -/

/-- `timeStringToSeconds` (download.go:723-734): `HH:MM:SS.mmm` to seconds;
a malformed shape yields 0 (parse errors are discarded with `_`). -/
def timeStringToSeconds (timeStr : String) : ℚ :=
  match strSplitOnChar timeStr ':' with
  | [h, m, sec] => parseFloatQ h * 3600 + parseFloatQ m * 60 + parseFloatQ sec
  | _ => 0

/-- `^frame=(\d+)$` (download.go:759): the whole line must match. -/
def matchFrameLine (line : String) : Option Nat :=
  match runToks [.lit "frame=", .capDigits] line.toList with
  | some ([ds], []) => some (ds.toList.foldl (fun n c => 10 * n + (c.toNat - 48)) 0)
  | _ => none

/-- `^out_time_ms=(\d+)$` (download.go:760). -/
def matchOutTimeLine (line : String) : Option Nat :=
  match runToks [.lit "out_time_ms=", .capDigits] line.toList with
  | some ([ds], []) => some (ds.toList.foldl (fun n c => 10 * n + (c.toNat - 48)) 0)
  | _ => none

/-- `^bitrate=(\d+\.?\d*)kbits/s$` (download.go:761). -/
def matchBitrateLine (line : String) : Option String :=
  match runToks [.lit "bitrate=", .capNum, .lit "kbits/s"] line.toList with
  | some ([b], []) => some b
  | _ => none

/-- `^speed=(\d+\.?\d*)x$` (download.go:762). -/
def matchSpeedLine (line : String) : Option String :=
  match runToks [.lit "speed=", .capNum, .lit "x"] line.toList with
  | some ([sp], []) => some sp
  | _ => none

/-- `frame=\s*(\d+).*?time=(\d{2}:\d{2}:\d{2}\.\d{2}).*?bitrate=\s*([\d\.]+)kbits/s`
(download.go:758), the fallback for classic FFmpeg status lines, at a fixed
start position. -/
def matchFallbackAt (cs : List Char) : Option (Nat × String × String) :=
  match runToks [.lit "frame=", .wsStar, .capDigits] cs with
  | some ([ds], cs1) =>
    match lazyGap (fun rest => runToks [.lit "time=", .capTime] rest) cs1 with
    | some ([t], cs2) =>
      match lazyGap (fun rest => runToks [.lit "bitrate=", .wsStar, .capNumDots, .lit "kbits/s"] rest) cs2 with
      | some ([b], _) =>
        some (ds.toList.foldl (fun n c => 10 * n + (c.toNat - 48)) 0, t, b)
      | _ => none
    | _ => none
  | _ => none

/-- `Duration:\s*([\d:\.]+)` (download.go:765) at a fixed start position. -/
def matchDurationAt (cs : List Char) : Option String :=
  match runToks [.lit "Duration:", .wsStar] cs with
  | some (_, cs1) =>
    match takeCls1 (fun c => c.isDigit || c = ':' || c = '.') cs1 with
    | some (tok, _) => some (String.mk tok)
    | none => none
  | none => none

/-- The mutable FFmpeg progress record of `monitorProgress`
(download.go:770-775). -/
structure FfmpegProgress where
  frames : Nat
  duration : ℚ
  currentTime : ℚ
  bitrate : String
  speed : String
deriving DecidableEq, Repr

/-- The zero-initialised record. -/
def initFfmpegProgress : FfmpegProgress := ⟨0, 0, 0, "", ""⟩

/-- `updateFFmpegProgress` (download.go:778-796): each field is overwritten
only by a non-zero / non-empty argument. -/
def updateFFmpegProgress (st : FfmpegProgress) (frames : Nat) (duration currentTime : ℚ)
    (bitrate speed : String) : FfmpegProgress :=
  { frames := if frames > 0 then frames else st.frames
    duration := if duration > 0 then duration else st.duration
    currentTime := if currentTime > 0 then currentTime else st.currentTime
    bitrate := if bitrate ≠ "" then bitrate else st.bitrate
    speed := if speed ≠ "" then speed else st.speed }

/-- The per-line dispatch of the stderr monitor while post-processing
(download.go:819-856): the four anchored `key=value` patterns are tried in
order, then the classic FFmpeg status line; the returned flag is
`progressUpdated`.  `out_time_ms` values are microseconds and are divided by
1,000,000. -/
def processStderrLine (st : FfmpegProgress) (line : String) : FfmpegProgress × Bool :=
  match matchFrameLine line with
  | some n => (updateFFmpegProgress st n 0 0 "" "", true)
  | none =>
    match matchOutTimeLine line with
    | some ms => (updateFFmpegProgress st 0 0 ((ms : ℚ) / 1000000) "" "", true)
    | none =>
      match matchBitrateLine line with
      | some b => (updateFFmpegProgress st 0 0 0 (b ++ "kbps") "", true)
      | none =>
        match matchSpeedLine line with
        | some sp => (updateFFmpegProgress st 0 0 0 "" (sp ++ "x"), true)
        | none =>
          match findAt matchFallbackAt line.toList with
          | some (fr, t, b) =>
            (updateFFmpegProgress st fr 0 (timeStringToSeconds t) (b ++ "kbps") "", true)
          | none => (st, false)

/-- The stdout `Duration:` probe handling (download.go:912-941): only acted
on while the total duration is still unknown. -/
def applyDurationLine (st : FfmpegProgress) (line : String) : FfmpegProgress :=
  if st.duration = 0 then
    match findAt matchDurationAt line.toList with
    | some cap => updateFFmpegProgress st 0 (timeStringToSeconds cap) 0 "" ""
    | none => st
  else st

/-- Go's `%.0f` formatting of the non-negative second counts this program
prints: round half to even, then render in decimal. -/
def goFmtF0 (q : ℚ) : String :=
  let f := ⌊q⌋
  let r := q - (f : ℚ)
  let i := if r > 1 / 2 then f + 1
           else if r < 1 / 2 then f
           else if f % 2 = 0 then f else f + 1
  i.repr

/-- The snapshot the stderr monitor sends after a parsed update when both
duration and current time are known (download.go:858-901): percentage is
`currentTime/duration*100` clamped to 100, the ETA is the remaining seconds
while progress is strictly between 0 and 100, speed falls back to bitrate,
and the size slot carries the frame counter. -/
def ffmpegSnapshot (st : FfmpegProgress) : Option DownloadProgress :=
  if st.duration > 0 ∧ st.currentTime > 0 then
    let pp0 := st.currentTime / st.duration * 100
    let pp := if pp0 > 100 then 100 else pp0
    let eta :=
      if 0 < pp ∧ pp < 100 ∧ 0 < st.duration - st.currentTime then
        goFmtF0 (st.duration - st.currentTime) ++ "s"
      else ""
    let speedInfo := if st.speed ≠ "" then st.speed else st.bitrate
    some ⟨pp, speedInfo, eta, "Frame " ++ Nat.repr st.frames⟩
  else none

/-! ## Filename sanitation and output-file discovery
(`internal/core/filename.go`, `Downloader.findDownloadedFile`) -/

/-- Replace each maximal whitespace run by a single space
(`regexp \s+` → `" "`); the flag records whether the previous character was
whitespace. -/
def collapseWsAux : Bool → List Char → List Char
  | _, [] => []
  | prevWs, c :: cs =>
    if isRegexWs c then
      if prevWs then collapseWsAux true cs else ' ' :: collapseWsAux true cs
    else c :: collapseWsAux false cs

/-- `sanitizeWindowsReservedNames` (src/internal/core/filename.go:59-75);
`strings.EqualFold` is modelled by ASCII case-folded comparison. -/
def sanitizeWindowsReservedNames (filename : String) : String :=
  let reserved := ["CON", "PRN", "AUX", "NUL",
    "COM1", "COM2", "COM3", "COM4", "COM5", "COM6", "COM7", "COM8", "COM9",
    "LPT1", "LPT2", "LPT3", "LPT4", "LPT5", "LPT6", "LPT7", "LPT8", "LPT9"]
  if reserved.any (fun r => lowerStr filename = lowerStr r) then filename ++ " file"
  else filename

/-- `core.SanitizeFilename` (src/internal/core/filename.go:10-56): split off a
short space-free extension at the last dot, keep only letters, digits and
spaces (`unicode.IsLetter`/`IsDigit` modelled by their ASCII fragments),
collapse whitespace runs, trim, guard Windows reserved names, truncate to 200
characters, default to `"download"` when empty, and re-attach the
extension. -/
def sanitizeFilename (filename : String) : String :=
  let rcs := filename.toList.reverse
  let pre := rcs.takeWhile (fun c => c ≠ '.')
  let split :=
    if pre.length = rcs.length then (filename, "")
    else
      let potentialExt := String.mk ('.' :: pre.reverse)
      if ¬ containsSub potentialExt " " ∧ potentialExt.length ≤ 6 then
        (String.mk ((rcs.drop (pre.length + 1)).reverse), potentialExt)
      else (filename, "")
  let name := split.1
  let ext := split.2
  let kept := name.toList.filter (fun c => c.isAlpha || c.isDigit || c = ' ')
  let collapsed := String.mk (collapseWsAux false kept)
  let trimmed := trimSpaceStr collapsed
  let guarded := sanitizeWindowsReservedNames trimmed
  let truncated :=
    if guarded.length > 200 then
      String.mk (((guarded.toList.take 200).reverse.dropWhile (fun c => c = ' ')).reverse)
    else guarded
  let final := if truncated = "" then "download" else truncated
  final ++ ext

/-- `Downloader.findMostRecentFile` (src/internal/core/download.go:309-339):
the newest file in `listing` (filename with modification time, in the sorted
order `os.ReadDir` yields) whose lower-cased name carries the target
extension; strict `After` keeps the earlier of two equally old files.
Returns `""` when there is none. -/
def findMostRecentFile (outputDir format : String) (listing : List (String × Nat)) : String :=
  let best := listing.foldl
    (fun (acc : Option (String × Nat)) e =>
      if strEndsWith (lowerStr e.1) ("." ++ format) then
        match acc with
        | none => some e
        | some m => if e.2 > m.2 then some e else some m
      else acc)
    none
  match best with
  | some m => joinPath outputDir m.1
  | none => ""

/-- `Downloader.findDownloadedFile` (src/internal/core/download.go:262-306).
A title that is still the fallback URL (`http…` prefix) delegates entirely to
`findMostRecentFile`.  Otherwise the sanitized and raw titles are probed as
exact filenames, then the directory is scanned for the first name containing
the sanitized title (case-folded) with the right extension; when both steps
fail the result is `""` — there is no further fallback. -/
def findDownloadedFile (outputDir title format : String) (listing : List (String × Nat)) :
    String :=
  if strStartsWith title "http" then findMostRecentFile outputDir format listing
  else
    let sanitizedTitle := sanitizeFilename title
    let possible := [sanitizedTitle ++ "." ++ format, title ++ "." ++ format]
    match possible.find? (fun f => listing.any (fun e => e.1 == f)) with
    | some f => joinPath outputDir f
    | none =>
      match listing.find? (fun e =>
          containsSub (lowerStr e.1) (lowerStr sanitizedTitle) &&
          strEndsWith (lowerStr e.1) ("." ++ format)) with
      | some e => joinPath outputDir e.1
      | none => ""

/-! ## Decimal representation: `Nat.repr` is injective

`core.GenerateID` renders the clock reading with `fmt.Sprintf("%d", …)`,
modelled by `Nat.repr`.  The following development shows that distinct
readings give distinct IDs (and nothing else does — equal readings give equal
IDs by reflexivity). -/

/-- The decimal digit list of a natural number, most significant first. -/
def decSpecDigits (n : Nat) : List Char :=
  if _h : n < 10 then [Nat.digitChar n]
  else decSpecDigits (n / 10) ++ [Nat.digitChar (n % 10)]
termination_by n
decreasing_by exact Nat.div_lt_self (by omega) (by omega)

/-- Decimal value of a digit list, most significant first. -/
def decValue (ds : List Char) : Nat :=
  ds.foldl (fun a c => 10 * a + (c.toNat - 48)) 0

/-! ## Concrete fixtures used by the per-claim witnesses and counterexamples -/

/-- A completed job, as left behind by a finished download. -/
def fixCompleted : Download :=
  { id := "a", url := "https://example.com/v/1", type := .video, quality := "best"
    format := "mp4", status := .completed, progress := ⟨100, "", "", "10.00MiB"⟩
    title := "My Video", filename := "My Video.mp4", outputPath := "/out/My Video.mp4"
    createdAt := 3, completedAt := some 9, error := "", statusMessage := "" }

/-- A manager state holding only the completed job `fixCompleted`. -/
def fixStateCompleted : DMState :=
  ⟨[("a", fixCompleted)], [], 100, ["a"], [], [], [], "/out"⟩

/-- A paused job carrying a prior error and partial progress. -/
def fixPaused : Download :=
  { fixCompleted with id := "b", status := .paused, error := "boom"
                      progress := ⟨55, "1.00MiB/s", "00:10", "10.00MiB"⟩
                      completedAt := none }

/-- A manager state holding only the paused job `fixPaused`. -/
def fixStatePaused : DMState :=
  ⟨[("b", fixPaused)], [], 100, ["b"], [], ["b"], [], "/out"⟩

/-- A downloading job bound to a worker. -/
def fixDownloading : Download :=
  { fixCompleted with id := "c", status := .downloading, completedAt := none
                      outputPath := "" }

/-- A manager state holding only `fixDownloading` with its cancellation
handle installed. -/
def fixStateDownloading : DMState :=
  ⟨[("c", fixDownloading)], [], 100, ["c"], ["c"], [], ["https://example.com/v/1"], "/out"⟩

/-- A queued job for the duplicate-suppression scenarios. -/
def fixQueued : Download :=
  { fixCompleted with id := "q", status := .queued, completedAt := none
                      outputPath := "", progress := emptyProgress }

/-- A manager state holding only `fixQueued`, with its URL marked as being
processed, as `AddDownload` leaves it. -/
def fixStateQueued : DMState :=
  ⟨[("q", fixQueued)], ["q"], 100, ["q"], [], [], ["https://example.com/v/1"], "/out"⟩

/-- The request matching `fixQueued`'s tuple. -/
def fixReq : DownloadRequest :=
  ⟨"https://example.com/v/1", .video, "best", "mp4"⟩

/-- `fixStateQueued` with a full queue (capacity 1, one queued entry) and no
duplicate-URL marker, for the queue-saturation rollback scenario. -/
def fixStateFull : DMState :=
  ⟨[("q", fixQueued)], ["q"], 1, ["q"], [], [], [], "/out"⟩

/-- A second request with a distinct tuple, to be rejected by the full
queue. -/
def fixReq2 : DownloadRequest :=
  ⟨"https://example.com/v/2", .video, "best", "mp4"⟩

/-! ## General lemmas about the table operations -/

theorem lookupDl_updateDl (l : List (String × Download)) (id : String)
    (f : Download → Download) :
    lookupDl (updateDl l id f) id = (lookupDl l id).map f := by
  induction l with
  | nil => rfl
  | cons p t ih =>
    obtain ⟨k, d⟩ := p
    by_cases h : k = id
    · subst h
      simp [lookupDl, updateDl, List.find?_cons_of_pos]
    · have hb : (k == id) = false := by simp [h]
      simp only [updateDl, List.map_cons, hb, Bool.false_eq_true, if_false]
      rw [lookupDl, List.find?_cons_of_neg _ (by simp [h]),
        lookupDl, List.find?_cons_of_neg _ (by simp [h])]
      exact ih

theorem eraseS_not_mem (l : List String) (x : String) (h : x ∉ l) : eraseS l x = l := by
  rw [eraseS, List.filter_eq_self]
  intro y hy
  have hne : y ≠ x := fun he => h (he ▸ hy)
  simp [hne]

theorem eraseS_insertS (l : List String) (x : String) (h : x ∉ l) :
    eraseS (insertS l x) x = l := by
  have hc : ¬ l.contains x = true := fun hct => h (List.elem_iff.1 hct)
  rw [insertS, if_neg hc, eraseS, List.filter_append, ← eraseS, eraseS_not_mem l x h]
  simp [eraseS]

theorem eraseDl_of_lookup_none (l : List (String × Download)) (id : String)
    (h : lookupDl l id = none) : eraseDl l id = l := by
  have hf : List.find? (fun p => p.1 == id) l = none := by
    cases hfind : List.find? (fun p => p.1 == id) l with
    | none => rfl
    | some q => rw [lookupDl, hfind] at h; simp at h
  rw [eraseDl, List.filter_eq_self]
  intro p hp
  have := List.find?_eq_none.1 hf p hp
  simpa using this

theorem eraseDl_insertDl (l : List (String × Download)) (id : String) (d : Download)
    (h : lookupDl l id = none) :
    eraseDl (insertDl l id d) id = l := by
  rw [insertDl, eraseDl_of_lookup_none l id h, eraseDl, List.filter_append,
    ← eraseDl, eraseDl_of_lookup_none l id h]
  simp [eraseDl]

/-! ## C4 — progress extraction -/

/-- Evaluation: the percentage text of the claim line parses to 42. -/
theorem c4aux_parse : parseFloatQ "42.0" = 42 := by
  have hs : strSplitOnChar "42.0" '.' = ["42", "0"] := by decide
  have hf1 : ("42".toList.foldl (fun n c => 10 * n + (c.toNat - 48)) 0) = 42 := by decide
  have hf2 : ("0".toList.foldl (fun n c => 10 * n + (c.toNat - 48)) 0) = 0 := by decide
  have hl : ("0" : String).length = 1 := by decide
  simp only [parseFloatQ, hs, hf1, hf2, hl]
  norm_num
  decide

/-- Evaluation: the probed duration text means ten seconds. -/
theorem c4aux_timeSec : timeStringToSeconds "00:00:10.00" = 10 := by
  have hs : strSplitOnChar "00:00:10.00" ':' = ["00", "00", "10.00"] := by decide
  have h0 : parseFloatQ "00" = 0 := by
    have h : strSplitOnChar "00" '.' = ["00"] := by decide
    have hf : ("00".toList.foldl (fun n c => 10 * n + (c.toNat - 48)) 0) = 0 := by decide
    simp only [parseFloatQ, h, hf]
    norm_num
  have h10 : parseFloatQ "10.00" = 10 := by
    have h : strSplitOnChar "10.00" '.' = ["10", "00"] := by decide
    have hf1 : ("10".toList.foldl (fun n c => 10 * n + (c.toNat - 48)) 0) = 10 := by decide
    have hf2 : ("00".toList.foldl (fun n c => 10 * n + (c.toNat - 48)) 0) = 0 := by decide
    have hl : ("00" : String).length = 2 := by decide
    simp only [parseFloatQ, h, hf1, hf2, hl]
    norm_num
    decide
  simp only [timeStringToSeconds, hs, h0, h10]
  norm_num

/-- Evaluation: the `Duration:` probe fills in the ten-second total. -/
theorem c4aux_dur :
    applyDurationLine initFfmpegProgress
      "  Duration: 00:00:10.00, start: 0.000000, bitrate: 271 kb/s" =
      ⟨0, 10, 0, "", ""⟩ := by
  have hm : findAt matchDurationAt
      ("  Duration: 00:00:10.00, start: 0.000000, bitrate: 271 kb/s").toList =
      some "00:00:10.00" := by decide
  simp only [applyDurationLine, initFfmpegProgress, hm, c4aux_timeSec,
    updateFFmpegProgress]
  norm_num

/-- Evaluation: `frame=120` updates only the frame counter. -/
theorem c4aux_frame :
    processStderrLine ⟨0, 10, 0, "", ""⟩ "frame=120" = (⟨120, 10, 0, "", ""⟩, true) := by
  have hm : matchFrameLine "frame=120" = some 120 := by decide
  simp only [processStderrLine, hm, updateFFmpegProgress]
  norm_num

/-- Evaluation: `out_time_ms=5000000` sets the current time to five
seconds. -/
theorem c4aux_time :
    processStderrLine ⟨120, 10, 0, "", ""⟩ "out_time_ms=5000000" =
      (⟨120, 10, 5, "", ""⟩, true) := by
  have hm : matchFrameLine "out_time_ms=5000000" = none := by decide
  have hm2 : matchOutTimeLine "out_time_ms=5000000" = some 5000000 := by decide
  have hq : ((5000000 : ℕ) : ℚ) / 1000000 = 5 := by norm_num
  simp only [processStderrLine, hm, hm2, hq, updateFFmpegProgress]
  norm_num

/-- Evaluation: the emitted snapshot at 5s of 10s is 50%, with a 5s ETA. -/
theorem c4aux_snap :
    ffmpegSnapshot ⟨120, 10, 5, "", ""⟩ = some ⟨50, "", "5s", "Frame 120"⟩ := by
  have hpp : (5 : ℚ) / 10 * 100 = 50 := by norm_num
  have hfmt : goFmtF0 (5 : ℚ) = "5" := by
    have hfl : ⌊(5 : ℚ)⌋ = 5 := by norm_num
    simp only [goFmtF0, hfl]
    norm_num
    decide
  simp only [ffmpegSnapshot, hpp]
  norm_num
  rw [hfmt]
  decide

/-- Evaluation: the claim's `[download]` line is recognised by the first
pattern. -/
theorem c4aux_line :
    extractDownloadProgress "[download]  42.0% of 10.00MiB at 1.00MiB/s ETA 00:05" =
      some ⟨42, "1.00MiB/s", "00:05", "10.00MiB"⟩ := by
  have hm : findAt matchDl1At
      ("[download]  42.0% of 10.00MiB at 1.00MiB/s ETA 00:05").toList =
      some ["42.0", "10.00MiB", "1.00MiB/s", "00:05"] := by decide
  simp only [extractDownloadProgress, hm, c4aux_parse]

/-- **C4** (confirmed).  The download line
`[download]  42.0% of 10.00MiB at 1.00MiB/s ETA 00:05` is extracted to the
snapshot with percentage 42.0, size `10.00MiB`, speed `1.00MiB/s` and ETA
`00:05`; and after the FFmpeg probe line `Duration: 00:00:10.00` and the
machine-progress lines `frame=120` and `out_time_ms=5000000` have been
parsed, the monitor's computed percentage is
`currentTime/duration * 100 = 50`, which the clamp leaves untouched. -/
theorem c4_progress_extraction :
    extractDownloadProgress "[download]  42.0% of 10.00MiB at 1.00MiB/s ETA 00:05" =
      some ⟨42, "1.00MiB/s", "00:05", "10.00MiB"⟩ ∧
    (let st := (processStderrLine
        ((processStderrLine
          (applyDurationLine initFfmpegProgress
            "  Duration: 00:00:10.00, start: 0.000000, bitrate: 271 kb/s")
          "frame=120").1)
        "out_time_ms=5000000").1
     st.duration = 10 ∧ st.currentTime = 5 ∧
     st.currentTime / st.duration * 100 = 50 ∧
     ffmpegSnapshot st = some ⟨50, "", "5s", "Frame 120"⟩) := by
  have hst : (processStderrLine
      ((processStderrLine
        (applyDurationLine initFfmpegProgress
          "  Duration: 00:00:10.00, start: 0.000000, bitrate: 271 kb/s")
        "frame=120").1)
      "out_time_ms=5000000").1 = ⟨120, 10, 5, "", ""⟩ := by
    rw [c4aux_dur, c4aux_frame, c4aux_time]
  refine ⟨c4aux_line, ?_⟩
  rw [hst]
  refine ⟨rfl, rfl, by norm_num, c4aux_snap⟩

/-! ## C7 — non-blocking progress delivery -/

/-- **C7** (confirmed).  Every progress send in `monitorProgress` is total
and non-blocking: the raw non-blocking send either succeeds or raises only
the closed-channel fault, the `recover()` wrapper absorbs that fault, a full
or closed channel leaves the channel exactly as it was (the update is
silently dropped), and an open channel with room receives the snapshot. -/
theorem c7_nonblocking_send (ch : ProgressChan) (p : DownloadProgress) :
    (∃ ch', safeProgressSend ch p = ch' ∧
      (chanTrySend ch p = .ok ch' ∨
        (chanTrySend ch p = .error .sendOnClosedChannel ∧ ch' = ch))) ∧
    (ch.closed = true → safeProgressSend ch p = ch) ∧
    (ch.closed = false → ch.cap ≤ ch.buffer.length → safeProgressSend ch p = ch) ∧
    (ch.closed = false → ch.buffer.length < ch.cap →
      safeProgressSend ch p = { ch with buffer := ch.buffer ++ [p] }) := by
  by_cases hc : ch.closed = true
  · refine ⟨⟨ch, ?_, ?_⟩, fun _ => ?_, fun h => by simp [h] at hc, fun h => by simp [h] at hc⟩ <;>
      simp [safeProgressSend, chanTrySend, hc]
  · have hc' : ch.closed = false := by simpa using hc
    by_cases hl : ch.buffer.length < ch.cap
    · refine ⟨⟨{ ch with buffer := ch.buffer ++ [p] }, ?_, ?_⟩,
        fun h => by simp [h] at hc', fun _ h => by omega, fun _ _ => ?_⟩ <;>
        simp [safeProgressSend, chanTrySend, hc', hl]
    · refine ⟨⟨ch, ?_, ?_⟩, fun h => by simp [h] at hc', fun _ _ => ?_, fun _ h => by omega⟩ <;>
        simp [safeProgressSend, chanTrySend, hc', hl]

/-- Witness for C7 at a concrete open channel with room: the snapshot is
delivered. -/
theorem c7_nonblocking_send_witness :
    safeProgressSend ⟨10, [], false⟩ ⟨42, "1.00MiB/s", "00:05", "10.00MiB"⟩ =
      ⟨10, [⟨42, "1.00MiB/s", "00:05", "10.00MiB"⟩], false⟩ := by
  have h := (c7_nonblocking_send ⟨10, [], false⟩
    ⟨42, "1.00MiB/s", "00:05", "10.00MiB"⟩).2.2.2 (by decide) (by decide)
  simpa using h

/-! ## C1 — terminal-state finality -/

/-- **C1** is false as stated: a single `RetryDownload` on a `completed` job
succeeds, moves it back to `queued` and re-enqueues it — `RetryDownload`
only rejects `downloading` and `queued` jobs. -/
theorem c1_terminal_finality_counterexample :
    fixCompleted.status = .completed ∧
    (retryDownload fixStateCompleted "a").err = none ∧
    statusOf (retryDownload fixStateCompleted "a").state "a" = some .queued ∧
    (retryDownload fixStateCompleted "a").state.queue = ["a"] := by decide

/-- **C1** (corrected).  For a job in `completed`, `cancelled` or
`already_exists`: `Cancel` returns nil leaving the status (and queue)
untouched and invokes no handle, `Pause` and `Resume` fail leaving the whole
state untouched — but `Retry` re-enqueues the job in `queued`. -/
theorem c1_terminal_finality (s : DMState) (id : String) (d : Download)
    (hd : lookupDl s.downloads id = some d)
    (hterm : d.status = .completed ∨ d.status = .cancelled ∨ d.status = .alreadyExists) :
    ((cancelDownload s id).err = none ∧
      statusOf (cancelDownload s id).state id = some d.status ∧
      (cancelDownload s id).state.queue = s.queue ∧
      (cancelDownload s id).invoked = []) ∧
    ((pauseDownload s id).err = some "download cannot be paused in current state" ∧
      (pauseDownload s id).state = s ∧ (pauseDownload s id).invoked = []) ∧
    ((resumeDownload s id).err = some "download is not paused" ∧
      (resumeDownload s id).state = s) ∧
    (s.queue.length < s.queueCap →
      (retryDownload s id).err = none ∧
      statusOf (retryDownload s id).state id = some .queued ∧
      (retryDownload s id).state.queue = s.queue ++ [id]) := by
  rcases hterm with h | h | h <;>
  · refine ⟨?_, ?_, ?_, ?_⟩
    · simp [cancelDownload, hd, h, statusOf]
    · simp [pauseDownload, hd, h]
    · simp [resumeDownload, hd, h]
    · intro hq
      simp [retryDownload, hd, h, hq, statusOf, lookupDl_updateDl]

/-- Witness for C1 on the one-completed-job state. -/
theorem c1_terminal_finality_witness :
    ((cancelDownload fixStateCompleted "a").err = none ∧
      statusOf (cancelDownload fixStateCompleted "a").state "a" = some fixCompleted.status ∧
      (cancelDownload fixStateCompleted "a").state.queue = fixStateCompleted.queue ∧
      (cancelDownload fixStateCompleted "a").invoked = []) ∧
    ((pauseDownload fixStateCompleted "a").err =
        some "download cannot be paused in current state" ∧
      (pauseDownload fixStateCompleted "a").state = fixStateCompleted ∧
      (pauseDownload fixStateCompleted "a").invoked = []) ∧
    ((resumeDownload fixStateCompleted "a").err = some "download is not paused" ∧
      (resumeDownload fixStateCompleted "a").state = fixStateCompleted) ∧
    ((retryDownload fixStateCompleted "a").err = none ∧
      statusOf (retryDownload fixStateCompleted "a").state "a" = some .queued ∧
      (retryDownload fixStateCompleted "a").state.queue = fixStateCompleted.queue ++ ["a"]) := by
  have h := c1_terminal_finality fixStateCompleted "a" fixCompleted (by decide)
    (Or.inl (by decide))
  exact ⟨h.1, h.2.1, h.2.2.1, h.2.2.2 (by decide)⟩

/-! ## C5 — pause/resume frame -/

/-- **C5** is false as stated: resuming a paused job clears its error text
(`download.Error = ""`) while the claim demands the prior error be
preserved; the prior progress, however, is indeed kept. -/
theorem c5_pause_resume_counterexample :
    fixPaused.error = "boom" ∧
    (resumeDownload fixStatePaused "b").err = none ∧
    (lookupDl (resumeDownload fixStatePaused "b").state.downloads "b").map (·.error) =
      some "" ∧
    (lookupDl (resumeDownload fixStatePaused "b").state.downloads "b").map (·.progress) =
      some ⟨55, "1.00MiB/s", "00:10", "10.00MiB"⟩ := by decide

/-- **C5** (corrected).  Pausing a `downloading` job with an installed
cancellation handle invokes it exactly once and leaves the job `paused`;
resuming a `paused` job (queue permitting) re-enqueues it as `queued` with
progress and completion timestamp unchanged, but its error text is cleared,
not preserved. -/
theorem c5_pause_resume_frame (s : DMState) (id : String) (d : Download)
    (hd : lookupDl s.downloads id = some d) :
    (d.status = .downloading → s.cancelFuncs.contains id = true →
      (pauseDownload s id).invoked = [id] ∧
      (pauseDownload s id).err = none ∧
      statusOf (pauseDownload s id).state id = some .paused) ∧
    (d.status = .paused → s.queue.length < s.queueCap →
      (resumeDownload s id).err = none ∧
      statusOf (resumeDownload s id).state id = some .queued ∧
      (resumeDownload s id).state.queue = s.queue ++ [id] ∧
      (lookupDl (resumeDownload s id).state.downloads id).map (·.progress) =
        some d.progress ∧
      (lookupDl (resumeDownload s id).state.downloads id).map (·.completedAt) =
        some d.completedAt ∧
      (lookupDl (resumeDownload s id).state.downloads id).map (·.error) = some "") := by
  constructor
  · intro h hcf
    have hm : id ∈ s.cancelFuncs := List.elem_iff.1 hcf
    simp [pauseDownload, hd, h, hcf, hm, statusOf, lookupDl_updateDl]
  · intro h hq
    simp [resumeDownload, hd, h, hq, statusOf, lookupDl_updateDl]

/-- Witness for C5: the pause half on a downloading job with a handle, the
resume half on a paused job with prior error and progress. -/
theorem c5_pause_resume_frame_witness :
    ((pauseDownload fixStateDownloading "c").invoked = ["c"] ∧
      (pauseDownload fixStateDownloading "c").err = none ∧
      statusOf (pauseDownload fixStateDownloading "c").state "c" = some .paused) ∧
    ((resumeDownload fixStatePaused "b").err = none ∧
      statusOf (resumeDownload fixStatePaused "b").state "b" = some .queued ∧
      (resumeDownload fixStatePaused "b").state.queue = fixStatePaused.queue ++ ["b"] ∧
      (lookupDl (resumeDownload fixStatePaused "b").state.downloads "b").map (·.progress) =
        some fixPaused.progress ∧
      (lookupDl (resumeDownload fixStatePaused "b").state.downloads "b").map (·.completedAt) =
        some fixPaused.completedAt ∧
      (lookupDl (resumeDownload fixStatePaused "b").state.downloads "b").map (·.error) =
        some "") :=
  ⟨(c5_pause_resume_frame fixStateDownloading "c" fixDownloading (by decide)).1
      (by decide) (by decide),
   (c5_pause_resume_frame fixStatePaused "b" fixPaused (by decide)).2
      (by decide) (by decide)⟩

/-! ## C2 — duplicate suppression -/

/-- When the table holds exactly one job with the request's tuple and that
job is `queued`/`downloading`/`post-processing`, the duplicate scan reports
the in-flight duplicate error. -/
theorem dupCheck_of_active (req : DownloadRequest) (l : List (String × Download))
    (hcount : (l.filter (fun p => tupleMatch req p.2)).length = 1)
    (p : String × Download) (hp : p ∈ l) (hmatch : tupleMatch req p.2 = true)
    (hactive : p.2.status = .queued ∨ p.2.status = .downloading ∨
      p.2.status = .postProcessing) :
    dupCheck req l =
      some "this URL is already being downloaded with the same quality and format" := by
  induction l with
  | nil => cases hp
  | cons q t ih =>
    by_cases hq : tupleMatch req q.2 = true
    · have hqprop := of_decide_eq_true hq
      have hfilter : (t.filter (fun p => tupleMatch req p.2)).length = 0 := by
        simp only [List.filter_cons, hq, if_pos] at hcount
        simpa using hcount
      have hpq : p = q := by
        rcases List.mem_cons.1 hp with h | h
        · exact h
        · exfalso
          have : p ∈ t.filter (fun p => tupleMatch req p.2) :=
            List.mem_filter.2 ⟨h, hmatch⟩
          rw [List.length_eq_zero] at hfilter
          simp [hfilter] at this
      subst hpq
      obtain ⟨k, d⟩ := p
      rcases hactive with hs | hs | hs <;>
      · simp only [dupCheck]
        rw [if_pos hqprop, hs]
    · have hne : p ≠ q := fun he => hq (he ▸ hmatch)
      have hp' : p ∈ t := by
        rcases List.mem_cons.1 hp with h | h
        · exact absurd h hne
        · exact h
      have hcount' : (t.filter (fun p => tupleMatch req p.2)).length = 1 := by
        simpa [List.filter_cons, hq] using hcount
      have hqprop : ¬ (q.2.url = req.url ∧ q.2.type = req.type ∧
          q.2.quality = req.quality ∧ q.2.format = req.format) :=
        fun hc => hq (decide_eq_true hc)
      obtain ⟨k, d⟩ := q
      simp only [dupCheck, if_neg hqprop]
      exact ih hcount' hp'

/-- **C2** (confirmed).  If exactly one job with the request's (URL, kind,
quality, format) tuple is in the table and it is `queued`, `downloading` or
`post-processing`, a second `AddDownload` of a non-playlist URL with the
identical tuple returns a duplicate error (either the duplicate-URL-marker
rejection or the status-specific in-flight rejection) and afterwards the
manager state — in particular the job table, still holding exactly one job
for the tuple — is unchanged. -/
theorem c2_duplicate_suppression (s : DMState) (req : DownloadRequest)
    (newId : String) (now : Nat) (existingFile : String)
    (hpl : isPlaylistURL req.url = false)
    (hcount : (s.downloads.filter (fun p => tupleMatch req p.2)).length = 1)
    (p : String × Download) (hp : p ∈ s.downloads) (hmatch : tupleMatch req p.2 = true)
    (hactive : p.2.status = .queued ∨ p.2.status = .downloading ∨
      p.2.status = .postProcessing) :
    ∃ msg, (addDownload s req newId now existingFile).err = some msg ∧
      (msg = "this URL is already being processed" ∨
        msg = "this URL is already being downloaded with the same quality and format") ∧
      (addDownload s req newId now existingFile).state = s ∧
      ((addDownload s req newId now existingFile).state.downloads.filter
        (fun p => tupleMatch req p.2)).length = 1 := by
  by_cases hpu : req.url ∈ s.processingUrls
  · exact ⟨"this URL is already being processed",
      by simp [addDownload, hpl, hpu], Or.inl rfl,
      by simp [addDownload, hpl, hpu], by simp [addDownload, hpl, hpu, hcount]⟩
  · have hdup := dupCheck_of_active req s.downloads hcount p hp hmatch hactive
    exact ⟨"this URL is already being downloaded with the same quality and format",
      by simp [addDownload, hpl, hpu, hdup], Or.inr rfl,
      by simp [addDownload, hpl, hpu, hdup],
      by simp [addDownload, hpl, hpu, hdup, hcount]⟩

/-- Witness for C2: re-submitting the tuple of the queued job `fixQueued`
is rejected and the table still holds exactly that one job. -/
theorem c2_duplicate_suppression_witness :
    ∃ msg, (addDownload fixStateQueued fixReq "z" 7 "").err = some msg ∧
      (msg = "this URL is already being processed" ∨
        msg = "this URL is already being downloaded with the same quality and format") ∧
      (addDownload fixStateQueued fixReq "z" 7 "").state = fixStateQueued ∧
      ((addDownload fixStateQueued fixReq "z" 7 "").state.downloads.filter
        (fun p => tupleMatch fixReq p.2)).length = 1 :=
  c2_duplicate_suppression fixStateQueued fixReq "z" 7 "" (by decide) (by decide)
    ("q", fixQueued) (by decide) (by decide) (Or.inl (by decide))

/-! ## C6 — submission rollback on queue saturation -/

/-- **C6** (confirmed).  When the guards pass (non-playlist URL, no marker,
no duplicate, fresh ID, no pre-existing file) but the bounded queue is full,
`AddDownload` returns the queue-full error, creates no job, and the rollback
restores the job table, progress-channel table and duplicate-URL marker set
— the entire manager state — to exactly what they were before the call. -/
theorem c6_queue_full_rollback (s : DMState) (req : DownloadRequest)
    (newId : String) (now : Nat)
    (hpl : isPlaylistURL req.url = false)
    (hpu : req.url ∉ s.processingUrls)
    (hdup : dupCheck req s.downloads = none)
    (hfresh : lookupDl s.downloads newId = none)
    (hfresh2 : newId ∉ s.progressChannels)
    (hfull : s.queueCap ≤ s.queue.length) :
    (addDownload s req newId now "").err = some "download queue is full" ∧
    (addDownload s req newId now "").state = s ∧
    (addDownload s req newId now "").created = none := by
  have hq : ¬ s.queue.length < s.queueCap := by omega
  refine ⟨?_, ?_, ?_⟩ <;>
  · simp [addDownload, hpl, hpu, hdup, hq]
    try rw [eraseDl_insertDl _ _ _ hfresh, eraseS_insertS _ _ hfresh2,
      eraseS_insertS _ _ hpu]

/-- Witness for C6: a full one-slot queue rejects a fresh submission and the
state is exactly restored. -/
theorem c6_queue_full_rollback_witness :
    (addDownload fixStateFull fixReq2 "z" 7 "").err = some "download queue is full" ∧
    (addDownload fixStateFull fixReq2 "z" 7 "").state = fixStateFull ∧
    (addDownload fixStateFull fixReq2 "z" 7 "").created = none :=
  c6_queue_full_rollback fixStateFull fixReq2 "z" 7 (by decide) (by decide)
    (by decide) (by decide) (by decide) (by decide)

/-! ## C9 — job-ID uniqueness -/

theorem toDigitsCore_eq_decSpec (f : Nat) :
    ∀ (n : Nat) (ds : List Char), n < 10 ^ (f + 1) →
      Nat.toDigitsCore 10 (f + 1) n ds = decSpecDigits n ++ ds := by
  induction f with
  | zero =>
    intro n ds h
    have hn : n < 10 := by simpa using h
    have hdiv : n / 10 = 0 := Nat.div_eq_of_lt hn
    have hmod : n % 10 = n := Nat.mod_eq_of_lt hn
    rw [decSpecDigits]
    simp [Nat.toDigitsCore, hdiv, hmod, hn]
  | succ f ih =>
    intro n ds h
    by_cases hz : n / 10 = 0
    · have hn : n < 10 := by omega
      have hmod : n % 10 = n := Nat.mod_eq_of_lt hn
      rw [decSpecDigits]
      simp [Nat.toDigitsCore, hz, hmod, hn]
    · have hn : ¬ n < 10 := fun hlt => hz (Nat.div_eq_of_lt hlt)
      have hbound : n / 10 < 10 ^ (f + 1) := by
        rw [Nat.div_lt_iff_lt_mul (by omega)]
        calc n < 10 ^ (f + 1 + 1) := h
          _ = 10 ^ (f + 1) * 10 := by ring
      have step : Nat.toDigitsCore 10 (f + 1 + 1) n ds =
          Nat.toDigitsCore 10 (f + 1) (n / 10) (Nat.digitChar (n % 10) :: ds) := by
        rw [Nat.toDigitsCore]
        simp [hz]
      rw [step, ih (n / 10) (Nat.digitChar (n % 10) :: ds) hbound]
      conv_rhs => rw [decSpecDigits]
      simp [hn]

theorem decValue_decSpecDigits (n : Nat) : decValue (decSpecDigits n) = n := by
  induction n using Nat.strong_induction_on with
  | _ n ih =>
    by_cases hn : n < 10
    · rw [decSpecDigits]
      simp only [hn, if_pos, dif_pos]
      interval_cases n <;> rfl
    · rw [decSpecDigits]
      simp only [hn, dif_neg, if_neg, not_false_iff]
      have hlast : decValue (decSpecDigits (n / 10) ++ [Nat.digitChar (n % 10)]) =
          10 * decValue (decSpecDigits (n / 10)) + ((Nat.digitChar (n % 10)).toNat - 48) := by
        simp [decValue, List.foldl_append]
      rw [hlast, ih (n / 10) (Nat.div_lt_self (by omega) (by omega))]
      have hm : n % 10 < 10 := Nat.mod_lt _ (by omega)
      have hdigit : (Nat.digitChar (n % 10)).toNat - 48 = n % 10 := by
        set m := n % 10 with hmdef
        interval_cases m <;> rfl
      rw [hdigit]
      omega

/-- `Nat.repr` — and with it `generateID` — is injective. -/
theorem generateID_injective (t1 t2 : Nat) (h : generateID t1 = generateID t2) :
    t1 = t2 := by
  have hb : ∀ t : Nat, t < 10 ^ (t + 1) := fun t =>
    lt_of_lt_of_le (Nat.lt_two_pow t)
      (le_trans (Nat.pow_le_pow_left (by omega) t)
        (Nat.pow_le_pow_right (by omega) (by omega)))
  have hud : decSpecDigits t1 = decSpecDigits t2 := by
    have h1 : Nat.repr t1 = (decSpecDigits t1).asString := by
      rw [Nat.repr, Nat.toDigits, toDigitsCore_eq_decSpec t1 t1 [] (hb t1)]
      simp
    have h2 : Nat.repr t2 = (decSpecDigits t2).asString := by
      rw [Nat.repr, Nat.toDigits, toDigitsCore_eq_decSpec t2 t2 [] (hb t2)]
      simp
    have hth := h
    rw [generateID, generateID, h1, h2] at hth
    have hdata := congrArg String.data hth
    simpa [List.asString] using hdata
  have := congrArg decValue hud
  rwa [decValue_decSpecDigits, decValue_decSpecDigits] at this

/-- **C9** is false as stated: two playlist items created within the same
nanosecond (clock reading 12345 for both) receive the identical ID
`"12345"`, and the second map insert overwrites the first, leaving a single
job in the table for two distinct creations. -/
theorem c9_id_uniqueness_counterexample :
    (addPlaylistDownload fixStateFull fixReq2 [⟨"abc", "T1", "", ""⟩, ⟨"xyz", "T2", "", ""⟩]
        [12345, 12345]).2.map (·.id) = ["12345", "12345"] ∧
    (addPlaylistDownload fixStateFull fixReq2 [⟨"abc", "T1", "", ""⟩, ⟨"xyz", "T2", "", ""⟩]
        [12345, 12345]).1.downloads.length = fixStateFull.downloads.length + 1 := by
  constructor <;> decide

/-- **C9** (corrected).  `GenerateID` is the decimal rendering of the
nanosecond clock reading and nothing else, so two creations receive distinct
IDs exactly when their clock readings differ: distinct readings give
distinct IDs, and equal readings (two creations within the same nanosecond)
give the identical ID. -/
theorem c9_id_uniqueness (t1 t2 : Nat) :
    (t1 ≠ t2 → generateID t1 ≠ generateID t2) ∧
    (t1 = t2 → generateID t1 = generateID t2) :=
  ⟨fun hne heq => hne (generateID_injective t1 t2 heq), fun h => h ▸ rfl⟩

/-- Witness for C9 at two concrete clock readings one nanosecond apart. -/
theorem c9_id_uniqueness_witness :
    generateID 12345 ≠ generateID 12346 ∧ generateID 12345 = "12345" :=
  ⟨(c9_id_uniqueness 12345 12346).1 (by decide), by decide⟩

/-! ## C8 — output-file discovery order -/

/-- **C8** is false as stated: for an ordinary (non-URL) title whose exact
and fuzzy probes both fail, `findDownloadedFile` returns `""` even though a
file with the target extension exists — the most-recently-modified fallback
is never consulted on this path (it is reserved for the unknown-title
case). -/
theorem c8_discovery_order_counterexample :
    findDownloadedFile "out" "My Video" "mp4" [("other.mp4", 10)] = "" ∧
    findMostRecentFile "out" "mp4" [("other.mp4", 10)] = "out/other.mp4" ∧
    findDownloadedFile "out" "https://example.com/v/1" "mp4" [("other.mp4", 10)] =
      "out/other.mp4" := by
  refine ⟨by decide, by decide, by decide⟩

/-- **C8** (corrected).  After a non-cancelled zero exit the driver tries,
in order: the exact sanitized-title (then raw-title) filename, then the
first fuzzy substring match over files with the target extension — and when
both fail it reports no file at all.  The most-recently-modified-file
fallback is used only — and then exclusively — when the title is still the
fallback URL (`http…`). -/
theorem c8_discovery_order (dir title format : String) (listing : List (String × Nat)) :
    (strStartsWith title "http" = true →
      findDownloadedFile dir title format listing =
        findMostRecentFile dir format listing) ∧
    (strStartsWith title "http" = false →
      (∀ f, ([sanitizeFilename title ++ "." ++ format, title ++ "." ++ format].find?
          (fun f => listing.any (fun e => e.1 == f))) = some f →
        findDownloadedFile dir title format listing = joinPath dir f) ∧
      (([sanitizeFilename title ++ "." ++ format, title ++ "." ++ format].find?
          (fun f => listing.any (fun e => e.1 == f))) = none →
        (∀ e, (listing.find? (fun e =>
            containsSub (lowerStr e.1) (lowerStr (sanitizeFilename title)) &&
            strEndsWith (lowerStr e.1) ("." ++ format))) = some e →
          findDownloadedFile dir title format listing = joinPath dir e.1) ∧
        ((listing.find? (fun e =>
            containsSub (lowerStr e.1) (lowerStr (sanitizeFilename title)) &&
            strEndsWith (lowerStr e.1) ("." ++ format))) = none →
          findDownloadedFile dir title format listing = ""))) := by
  refine ⟨fun h => by simp [findDownloadedFile, h], fun h => ⟨?_, ?_⟩⟩
  · intro f hf
    simp [findDownloadedFile, h, hf]
  · intro hnone
    refine ⟨fun e he => ?_, fun hnone2 => ?_⟩
    · simp [findDownloadedFile, h, hnone, he]
    · simp [findDownloadedFile, h, hnone, hnone2]

/-- Witness for C8: the exact sanitized-title match wins when present, and
the URL-title case delegates to the newest file of the extension. -/
theorem c8_discovery_order_witness :
    findDownloadedFile "out" "My Video" "mp4" [("My Video.mp4", 5), ("zz.mp4", 9)] =
      "out/My Video.mp4" ∧
    findDownloadedFile "out" "https://example.com/v/1" "mp4" [("My Video.mp4", 5), ("zz.mp4", 9)] =
      findMostRecentFile "out" "mp4" [("My Video.mp4", 5), ("zz.mp4", 9)] := by
  constructor
  · have h := (c8_discovery_order "out" "My Video" "mp4"
      [("My Video.mp4", 5), ("zz.mp4", 9)]).2 (by decide)
    exact h.1 "My Video.mp4" (by decide)
  · exact (c8_discovery_order "out" "https://example.com/v/1" "mp4"
      [("My Video.mp4", 5), ("zz.mp4", 9)]).1 (by decide)

/-! ## C10 — deletion effects -/

/-- **C10** (confirmed).  `RemoveDownload` on a tracked job succeeds and
removes the job from the job table, the paused table, the
cancellation-handle table, the duplicate-URL marker set and the
progress-channel table; for a `completed`/`already_exists`/`post-processing`
job with a recorded output path the output file is deleted too, and for a
`downloading`/`post-processing`/`failed`/`cancelled` job every temporary or
partial file the cleanup scan matches is deleted as well. -/
theorem c10_delete_effects (s : DMState) (id : String) (listing : List String)
    (d : Download) (hd : lookupDl s.downloads id = some d) :
    (removeDownload s id listing).err = none ∧
    (removeDownload s id listing).state.downloads = eraseDl s.downloads id ∧
    (removeDownload s id listing).state.progressChannels = eraseS s.progressChannels id ∧
    (removeDownload s id listing).state.cancelFuncs = eraseS s.cancelFuncs id ∧
    (removeDownload s id listing).state.pausedDownloads = eraseS s.pausedDownloads id ∧
    (removeDownload s id listing).state.processingUrls = eraseS s.processingUrls d.url ∧
    ((d.status = .completed ∨ d.status = .alreadyExists ∨ d.status = .postProcessing) →
      d.outputPath ≠ "" → d.outputPath ∈ (removeDownload s id listing).removedFiles) ∧
    ((d.status = .downloading ∨ d.status = .postProcessing ∨ d.status = .failed ∨
        d.status = .cancelled) →
      ∀ f ∈ cleanupTemporaryFiles d s.outputDir listing,
        f ∈ (removeDownload s id listing).removedFiles) := by
  refine ⟨?_, ?_, ?_, ?_, ?_, ?_, ?_, ?_⟩
  · simp [removeDownload, hd]
  · simp [removeDownload, hd]
  · simp [removeDownload, hd]
  · simp [removeDownload, hd]
  · simp [removeDownload, hd]
  · simp [removeDownload, hd]
  · intro hst hne
    rcases hst with h | h | h <;> simp [removeDownload, hd, h, hne]
  · intro hst f hf
    rcases hst with h | h | h | h <;> simp [removeDownload, hd, h, hf]

/-- Witness for C10: deleting the completed job removes it from the tables
and deletes its output file. -/
theorem c10_delete_effects_witness :
    (removeDownload fixStateCompleted "a" []).err = none ∧
    (removeDownload fixStateCompleted "a" []).state.downloads =
      eraseDl fixStateCompleted.downloads "a" ∧
    (removeDownload fixStateCompleted "a" []).state.progressChannels =
      eraseS fixStateCompleted.progressChannels "a" ∧
    fixCompleted.outputPath ∈ (removeDownload fixStateCompleted "a" []).removedFiles := by
  have h := c10_delete_effects fixStateCompleted "a" [] fixCompleted (by decide)
  exact ⟨h.1, h.2.1, h.2.2.1,
    h.2.2.2.2.2.2.1 (Or.inl (by decide)) (by decide)⟩

/-! ## C3 — persistence round-trip -/

/-- What `validateRestoredDownload` does to a job with non-empty ID and URL:
it accepts it, preserves every request field and the output path, preserves
the status unless the job was `completed` with a recorded but now missing
output file, and in that one case demotes it to `failed` with the
explanatory error text. -/
theorem validateRestoredDownload_spec (fx : String → Bool) (d : Download)
    (hid : d.id ≠ "") (hurl : d.url ≠ "") :
    ∃ d2, validateRestoredDownload fx d = some d2 ∧
      d2.id = d.id ∧ d2.url = d.url ∧ d2.type = d.type ∧ d2.quality = d.quality ∧
      d2.format = d.format ∧ d2.outputPath = d.outputPath ∧
      ((¬ (d.status = .completed ∧ d.outputPath ≠ "" ∧ ¬ fx d.outputPath)) →
        d2.status = d.status) ∧
      (d.status = .completed → d.outputPath ≠ "" → ¬ fx d.outputPath →
        d2.status = .failed ∧ d2.error = "Output file not found after restart") := by
  simp only [validateRestoredDownload]
  rw [if_neg (by push_neg; exact ⟨hid, hurl⟩)]
  by_cases hdem : d.status = .completed ∧ d.outputPath ≠ "" ∧ ¬ fx d.outputPath
  · rw [if_pos hdem]
    rw [if_pos (by simp)]
    exact ⟨_, rfl, rfl, rfl, rfl, rfl, rfl, rfl,
      fun hc => absurd hdem hc, fun _ _ _ => ⟨rfl, rfl⟩⟩
  · rw [if_neg hdem]
    by_cases hres : d.status ≠ .completed ∧ d.status ≠ .alreadyExists
    · rw [if_pos hres]
      exact ⟨_, rfl, rfl, rfl, rfl, rfl, rfl, rfl, fun _ => rfl,
        fun h1 h2 h3 => absurd ⟨h1, h2, h3⟩ hdem⟩
    · rw [if_neg hres]
      exact ⟨d, rfl, rfl, rfl, rfl, rfl, rfl, rfl, fun _ => rfl,
        fun h1 h2 h3 => absurd ⟨h1, h2, h3⟩ hdem⟩

/-- The `LoadState` restore loop over jobs none of which are re-queued
(their validated statuses are outside `downloading`/`queued`/
`post-processing`) appends each job, as repaired by
`validateRestoredDownload`, to the table in order. -/
theorem loadState_restore_downloads (fx : String → Bool) :
    ∀ (l : List (String × Download)) (acc : DMState),
      (∀ p ∈ l, ∃ d2, validateRestoredDownload fx p.2 = some d2 ∧
        ¬(d2.status = .downloading ∨ d2.status = .queued ∨
          d2.status = .postProcessing)) →
      (∀ p ∈ l, lookupDl acc.downloads p.1 = none) →
      (l.map Prod.fst).Nodup →
      (l.foldl (fun a p => restoreOne fx a p.1 p.2) acc).downloads =
        acc.downloads ++
          l.map (fun p => (p.1, (validateRestoredDownload fx p.2).getD p.2)) := by
  intro l
  induction l with
  | nil => intro acc _ _ _; simp
  | cons p t ih =>
    intro acc hval hdisj hkeys
    obtain ⟨d2, hv, hnq⟩ := hval p (List.mem_cons_self p t)
    have hstep : (restoreOne fx acc p.1 p.2).downloads = acc.downloads ++ [(p.1, d2)] := by
      rw [restoreOne, hv]
      simp only [if_neg hnq]
      simp only [insertDl, eraseDl_of_lookup_none acc.downloads p.1
        (hdisj p (List.mem_cons_self p t))]
    have hpk : p.1 ∉ t.map Prod.fst := by
      simpa using (List.nodup_cons.1 hkeys).1
    have hdisj' : ∀ q ∈ t, lookupDl (restoreOne fx acc p.1 p.2).downloads q.1 = none := by
      intro q hq
      rw [hstep, lookupDl, List.find?_append]
      have h1 : List.find? (fun r => r.1 == q.1) acc.downloads = none := by
        have := hdisj q (List.mem_cons_of_mem p hq)
        cases hfind : List.find? (fun r => r.1 == q.1) acc.downloads with
        | none => rfl
        | some r => rw [lookupDl, hfind] at this; simp at this
      have hne : p.1 ≠ q.1 := by
        intro he
        exact hpk (he ▸ List.mem_map_of_mem Prod.fst hq)
      have hb : (p.1 == q.1) = false := by simp [hne]
      rw [h1]
      simp [List.find?, hb]
    have hfold : ((p :: t).foldl (fun a r => restoreOne fx a r.1 r.2) acc) =
        (t.foldl (fun a r => restoreOne fx a r.1 r.2) (restoreOne fx acc p.1 p.2)) := rfl
    rw [hfold, ih (restoreOne fx acc p.1 p.2)
      (fun q hq => hval q (List.mem_cons_of_mem p hq)) hdisj'
      (List.nodup_cons.1 hkeys).2, hstep]
    simp [hv]

/-- **C3** (confirmed).  Saving an idle job table (all jobs terminal, with
non-empty IDs and URLs and distinct keys) and loading the snapshot into a
fresh manager reproduces the table key-for-key: every job keeps its ID and
request fields, keeps its terminal state whenever its output file (if any)
still exists — and a job saved as `completed` whose output file is gone at
load time is reloaded as `failed` with the explanatory error text. -/
theorem c3_save_load_roundtrip (s s0 : DMState) (now : Nat) (fx : String → Bool)
    (h0 : s0.downloads = [])
    (hvalid : ∀ p ∈ s.downloads, p.2.id ≠ "" ∧ p.2.url ≠ "")
    (hterm : ∀ p ∈ s.downloads, p.2.status = .completed ∨ p.2.status = .failed ∨
      p.2.status = .cancelled ∨ p.2.status = .alreadyExists)
    (hkeys : (s.downloads.map Prod.fst).Nodup) :
    (loadState s0 (saveState s now) fx).downloads =
      s.downloads.map (fun p => (p.1, (validateRestoredDownload fx p.2).getD p.2)) ∧
    (∀ p ∈ s.downloads, ∃ d2, validateRestoredDownload fx p.2 = some d2 ∧
      d2.id = p.2.id ∧ d2.url = p.2.url ∧ d2.type = p.2.type ∧
      d2.quality = p.2.quality ∧ d2.format = p.2.format ∧
      ((¬ (p.2.status = .completed ∧ p.2.outputPath ≠ "" ∧ ¬ fx p.2.outputPath)) →
        d2.status = p.2.status) ∧
      (p.2.status = .completed → p.2.outputPath ≠ "" → ¬ fx p.2.outputPath →
        d2.status = .failed ∧ d2.error = "Output file not found after restart")) := by
  have hval : ∀ p ∈ s.downloads, ∃ d2, validateRestoredDownload fx p.2 = some d2 ∧
      ¬(d2.status = .downloading ∨ d2.status = .queued ∨
        d2.status = .postProcessing) := by
    intro p hp
    obtain ⟨d2, hv, _, _, _, _, _, _, hpres, hdem⟩ :=
      validateRestoredDownload_spec fx p.2 (hvalid p hp).1 (hvalid p hp).2
    refine ⟨d2, hv, ?_⟩
    by_cases hc : p.2.status = .completed ∧ p.2.outputPath ≠ "" ∧ ¬ fx p.2.outputPath
    · have := hdem hc.1 hc.2.1 hc.2.2
      rw [this.1]
      simp
    · rw [hpres hc]
      rcases hterm p hp with h | h | h | h <;> simp [h]
  constructor
  · rw [loadState]
    rw [if_neg (by simp [saveState, stateVersion])]
    have := loadState_restore_downloads fx s.downloads s0 hval
      (fun p _ => by rw [h0]; rfl) hkeys
    rw [saveState] at *
    rw [this, h0]
    simp
  · intro p hp
    obtain ⟨d2, hv, h1, h2, h3, h4, h5, _, hpres, hdem⟩ :=
      validateRestoredDownload_spec fx p.2 (hvalid p hp).1 (hvalid p hp).2
    exact ⟨d2, hv, h1, h2, h3, h4, h5, hpres, hdem⟩

/-- Witness for C3: a two-job idle table (one completed whose file survives,
one failed) reloads key-for-key, and with the completed job's file missing
it reloads as `failed` with the explanatory text. -/
theorem c3_save_load_roundtrip_witness :
    (loadState ⟨[], [], 100, [], [], [], [], "/out"⟩
        (saveState fixStateCompleted 9) (fun pth => pth == "/out/My Video.mp4")).downloads =
      fixStateCompleted.downloads.map
        (fun p => (p.1, (validateRestoredDownload
          (fun pth => pth == "/out/My Video.mp4") p.2).getD p.2)) ∧
    (∃ d2, validateRestoredDownload (fun _ => false) fixCompleted = some d2 ∧
      d2.status = .failed ∧ d2.error = "Output file not found after restart") := by
  refine ⟨(c3_save_load_roundtrip fixStateCompleted ⟨[], [], 100, [], [], [], [], "/out"⟩ 9
      (fun pth => pth == "/out/My Video.mp4") rfl (by decide) (by decide) (by decide)).1, ?_⟩
  obtain ⟨d2, hv, _, _, _, _, _, _, hdem⟩ :=
    (c3_save_load_roundtrip fixStateCompleted ⟨[], [], 100, [], [], [], [], "/out"⟩ 9
      (fun _ => false) rfl (by decide) (by decide) (by decide)).2
      ("a", fixCompleted) (by decide)
  exact ⟨d2, hv, hdem (by decide) (by decide) (by decide)⟩

end GoGetMedia
